import Mathlib

/-!
Verification development for the che-khabar news-retrieval core.

The Python sources are shallowly embedded:
* `models/news.py` → `NewsItem`, `FeedState`
* `services/rss_fetcher.py` → `fetch_feed`, `processEntries`, `generate_latest_hash`
* `services/news_service.py` → `NewsService.*`, `rss_poller_cycle`, `system_cycle`
* `services/semantic_search.py` → `SemanticSearchService.search` and friends
* `services/clustering_service.py` → `NewsClusteringService.*`

Modelling conventions:
* Python floats are modelled as `Rat`; the claims under study are about
  control flow, thresholds and exact small constants, not float rounding.
  NaN is not representable in `Rat`, so the NaN filter of
  `cluster_items` is vacuous in the model.
* `datetime` values are modelled as `Int` timestamps (totally ordered).
* The external sentence-transformer is the `Embedder` parameter
  (`settings.model.encode`); an `Except.error` models a raised exception.
  The float pipeline `normalize(encode(query)) · normalize(embedding)` of
  the semantic scorer is abstracted as a `sim` parameter.
* `hashlib.sha1` hex digests are modelled by collision-free string
  encodings; the code only ever compares digests for equality, and a
  digest of real data is never the empty string, which the encodings
  preserve.
* Python `set`s are modelled as duplicate-free `List`s, `dict`s as
  association lists with in-place-update insertion (`dictInsert`).
* Python's stable sorts (`sorted(...)`/`list.sort` with `reverse=True`)
  are modelled by `List.insertionSort`, which is also stable; a stable
  sort's output is uniquely determined by the comparator, so the two
  agree extensionally.
* A raised exception that a caller catches is modelled with
  `Except`/`Option` results (`SearchError` for `ZeroDivisionError` and
  `StopIteration`; `Except FeedState` for the abort path of the fetch
  loop whose outer handler returns `[]`).
-/

/-- From `models/news.py`: one ingested news article.  `embedding` is the
optional sentence-transformer vector. -/
structure NewsItem where
  id : String
  published : Int
  title : Option String
  url : Option String
  summary : Option String
  source : Option String
  embedding : Option (List Rat)
deriving DecidableEq

/-- From `models/news.py`: per-feed change-tracking state.  `seen_ids` is
a Python `set`, modelled as a duplicate-free list. -/
structure FeedState where
  latest_hash : Option String
  last_fetch_time : Option Int
  seen_ids : List String
deriving DecidableEq

/-- A parsed feed entry as `feedparser` hands it to `fetch_feed`
(`entry.get("id")`, `entry.link`, `entry.get("title")`,
`entry.get("summary")`, `entry.get("published")`,
`entry.published_parsed`).  `published_parsed` is `none` when the date is
missing or unparseable (the source's `ValueError` fallback path). -/
structure Entry where
  id : Option String
  link : String
  title : Option String
  summary : Option String
  published_raw : Option String
  published_parsed : Option Int
deriving DecidableEq

/-- A parsed feed: feed-level title plus the ordered entry list. -/
structure Feed where
  feed_title : Option String
  entries : List Entry
deriving DecidableEq

/-- Model of `hashlib.sha1(str(entry.link).encode()).hexdigest()`:
a collision-free encoding standing in for the hex digest. -/
def sha1OfLink (link : String) : String :=
  "sha1:" ++ link

/-- From `rss_fetcher.py` (`generate_latest_hash`): digest of the newest
entry's identity tuple `(id, title, link, published)` with `""` defaults;
`""` itself for an empty feed. -/
def generate_latest_hash (feed : Feed) : String :=
  match feed.entries with
  | [] => ""
  | latest :: _ =>
    "sha1:(" ++ latest.id.getD "" ++ ", " ++ latest.title.getD "" ++ ", " ++
      latest.link ++ ", " ++ latest.published_raw.getD "" ++ ")"

/-- From `rss_fetcher.py` line 53: `str(entry.get("id") or
hashlib.sha1(str(entry.link).encode()).hexdigest())` — prefer the entry's
own id when truthy, else hash the link. -/
def guidOf (e : Entry) : String :=
  match e.id with
  | some s => if s = "" then sha1OfLink e.link else s
  | none => sha1OfLink e.link

/-- Model of `str(x) if x else None` applied to an optional string:
Python truthiness maps `None` and `""` to `None`. -/
def strOpt (o : Option String) : Option String :=
  match o with
  | some s => if s = "" then none else some s
  | none => none

/-- `" ".join(ss)`: concatenate with a single space between elements. -/
def joinSpace : List String → String
  | [] => ""
  | [s] => s
  | s :: rest => s ++ " " ++ joinSpace rest

/-- From `rss_fetcher.py` line 73: `" ".join(filter(None, [title, summary]))`
(Python's `filter(None, ·)` drops the falsy members: `None` and `""`). -/
def embedText (title summary : Option String) : String :=
  joinSpace (([title, summary].filterMap id).filter (fun s => s ≠ ""))

/-- The external embedding provider (`settings.model.encode`); `.error`
models a raised exception. -/
abbrev Embedder := String → Except Unit (List Rat)

/-- Prepend a freshly built item onto the rest of the loop's outcome,
letting a raised exception (`.error`) propagate past it — `fresh_items.
append(...)` inside the `for` loop of `fetch_feed`. -/
def consResult (item : NewsItem) :
    Except FeedState (List NewsItem × FeedState) →
      Except FeedState (List NewsItem × FeedState)
  | .error st2 => .error st2
  | .ok (res, st2) => .ok (item :: res, st2)

/-- The per-entry loop of `fetch_feed` (`rss_fetcher.py` lines 52-91).
Returns `.error st` when the embedding provider raises: the exception
propagates to the outer `except Exception` handler with the state as
mutated so far (guids already added to `seen_ids` stay added). -/
def processEntries (embed : Embedder) (now : Int) (source : Option String) :
    List Entry → FeedState → Except FeedState (List NewsItem × FeedState)
  | [], st => .ok ([], st)
  | e :: rest, st =>
    let guid := guidOf e
    if guid ∈ st.seen_ids then
      processEntries embed now source rest st
    else
      let st1 : FeedState :=
        { latest_hash := st.latest_hash, last_fetch_time := st.last_fetch_time,
          seen_ids := guid :: st.seen_ids }
      let published : Int :=
        match e.published_parsed with
        | some t => t
        | none => now
      let title := strOpt e.title
      let summary := strOpt e.summary
      let text := embedText title summary
      if text = "" then
        consResult
          { id := guid, published := published, title := title,
            url := strOpt (some e.link), summary := summary,
            source := strOpt source, embedding := none }
          (processEntries embed now source rest st1)
      else
        match embed text with
        | .error _ => .error st1
        | .ok v =>
          consResult
            { id := guid, published := published, title := title,
              url := strOpt (some e.link), summary := summary,
              source := strOpt source, embedding := some v }
            (processEntries embed now source rest st1)

/-- Python truthiness of `state.latest_hash` (`if state.latest_hash:`):
`None` and `""` are falsy. -/
def hashTruthy : Option String → Bool
  | some s => s != ""
  | none => false

/-- The state carried by either outcome of `processEntries`. -/
def stateOf : Except FeedState (List NewsItem × FeedState) → FeedState
  | .error st => st
  | .ok (_, st) => st

/-- From `rss_fetcher.py` (`fetch_feed`, lines 33-100), modelling the
content-processing path after a successful HTTP 200 fetch and parse
(transport errors simply return `[]` with the state untouched and are not
modelled).  Short-circuits on an unchanged newest-entry hash; otherwise
records the new hash and fetch time and runs the per-entry loop; an
embedding-provider exception is caught by the outer handler, which
returns `[]` with the partially-mutated state. -/
def fetch_feed (embed : Embedder) (now : Int) (feed : Feed) (st : FeedState) :
    List NewsItem × FeedState :=
  let latest_hash := generate_latest_hash feed
  if hashTruthy st.latest_hash && (latest_hash == st.latest_hash.getD "") then
    ([], st)
  else
    let st1 : FeedState :=
      { latest_hash := some latest_hash, last_fetch_time := some now,
        seen_ids := st.seen_ids }
    match processEntries embed now feed.feed_title feed.entries st1 with
    | .error st2 => ([], st2)
    | .ok r => r

/-- Iterated polling: run `fetch_feed` over a sequence of (feed, now)
snapshots against a shared `FeedState`, collecting each call's batch. -/
def runFeeds (embed : Embedder) :
    List (Feed × Int) → FeedState → List (List NewsItem) × FeedState
  | [], st => ([], st)
  | (f, now) :: rest, st =>
    let r := fetch_feed embed now f st
    let rs := runFeeds embed rest r.2
    (r.1 :: rs.1, rs.2)

/-- The guids the entry loop would admit as fresh, in feed order, given
the current `seen_ids` — the loop of `rss_fetcher.py` minus the
item-building and embedding work. -/
def freshGuids : List Entry → List String → List String
  | [], _ => []
  | e :: rest, seen =>
    let g := guidOf e
    if g ∈ seen then freshGuids rest seen else g :: freshGuids rest (g :: seen)

/-- From `core/config.py`: `MAX_STORED_ARTICLES`. -/
def MAX_STORED_ARTICLES : Nat := 100

/-- `deque.appendleft` on a `deque(maxlen=cap)` (`news_service.py` lines
30 and 60): the new item enters at the left; when full, the rightmost
(least-recently-inserted) element is silently evicted. -/
def dequeAppendleft (cap : Nat) (store : List NewsItem) (item : NewsItem) :
    List NewsItem :=
  (item :: store).take cap

/-- Ordering used by all read paths: `published` descending. -/
def pubGE (a b : NewsItem) : Prop := b.published ≤ a.published

instance : DecidableRel pubGE := fun a b =>
  inferInstanceAs (Decidable (b.published ≤ a.published))

instance : IsTotal NewsItem pubGE := ⟨fun a b => le_total b.published a.published⟩

instance : IsTrans NewsItem pubGE := ⟨fun _ _ _ hab hbc => le_trans hbc hab⟩

/-- From `news_service.py` (`get_all_news`): `sorted(self.news_store,
key=lambda x: x.published, reverse=True)` — a stable sort by `published`
descending, modelled by `insertionSort`. -/
def NewsService.get_all_news (store : List NewsItem) : List NewsItem :=
  List.insertionSort pubGE store

/-- From `news_service.py` (`get_latest_news`): the same sorted view,
truncated to `sorted_news[:min(count, len(sorted_news))]`. -/
def NewsService.get_latest_news (count : Nat) (store : List NewsItem) :
    List NewsItem :=
  let sorted_news := List.insertionSort pubGE store
  sorted_news.take (min count sorted_news.length)

/-- State a `NewsService` instance owns (`__init__`, `news_service.py`
lines 29-32): the bounded deque and the feed tracker state.  Note that
`__init__` constructs no clustering component. -/
structure NewsServiceState where
  news_store : List NewsItem
  feed_state : FeedState
deriving DecidableEq

/-- One iteration of `_rss_poller` (`news_service.py` lines 52-78):
fetch, then `appendleft` each new item into the bounded deque (the
explicit trim on lines 68-73 is kept, though a `maxlen` deque never
exceeds its capacity).  The Telegram call is commented out in the
source; no clustering call appears in the loop body. -/
def rss_poller_cycle (embed : Embedder) (now : Int) (feed : Feed)
    (svc : NewsServiceState) : List NewsItem × NewsServiceState :=
  let r := fetch_feed embed now feed svc.feed_state
  let new_items := r.1
  let store2 :=
    if new_items = [] then svc.news_store
    else
      let s1 := new_items.foldl (dequeAppendleft MAX_STORED_ARTICLES) svc.news_store
      if MAX_STORED_ARTICLES < s1.length then s1.take MAX_STORED_ARTICLES else s1
  (new_items, { news_store := store2, feed_state := r.2 })

/-- From `models/semantic_search.py`: the confidence tier enum. -/
inductive MatchConfidence where
  | VERY_STRONG
  | STRONG
  | POSSIBLE
  | WEAK
deriving DecidableEq

/-- From `models/semantic_search.py`: one semantic search hit. -/
structure SemanticSearchResult where
  news_item : NewsItem
  similarity_score : Rat
  confidence : MatchConfidence
deriving DecidableEq

/-- Exceptions `SemanticSearchService.search` can raise:
`ZeroDivisionError` from the weight renormalization (line 54) and
`StopIteration` from the exhausted confidence-threshold generator
(lines 83-90). -/
inductive SearchError where
  | zeroDivision
  | stopIteration
deriving DecidableEq

deriving instance DecidableEq for Except

/-- `SemanticSearchService.TITLE_WEIGHT`. -/
def TITLE_WEIGHT : Rat := 7/10

/-- `SemanticSearchService.SUMMARY_WEIGHT`. -/
def SUMMARY_WEIGHT : Rat := 3/10

/-- `SemanticSearchService.EXACT_MATCH_BOOST`. -/
def EXACT_MATCH_BOOST : Rat := 3/10

/-- A regex `\w` word character (ASCII range; the claims do not
exercise non-ASCII text). -/
def isWordChar (c : Char) : Bool :=
  c.isAlphanum || c == '_'

/-- Split a character stream into maximal runs of word characters
(`re.findall(r'\w+', ...)`), carrying the current run reversed. -/
def findallWords : List Char → List Char → List String
  | [], acc => if acc = [] then [] else [String.mk acc.reverse]
  | c :: rest, acc =>
    if isWordChar c then findallWords rest (c :: acc)
    else if acc = [] then findallWords rest []
    else String.mk acc.reverse :: findallWords rest []

/-- `set(re.findall(r'\w+', s.lower()))`: the lowercase word set
(deduplicated; list membership is all the code uses of the set). -/
def wordsOf (s : String) : List String :=
  (findallWords (s.data.map Char.toLower) []).dedup

/-- From `semantic_search.py` (`_calculate_exact_match_score`): word-set
overlap of the query with title and summary, blended with the CLASS
constants 0.7/0.3 (not with any caller-supplied weights). -/
def calculate_exact_match_score (query : String) (title summary : Option String) :
    Rat :=
  let query_words := wordsOf query
  let title_words := wordsOf (title.getD "")
  let summary_words := wordsOf (summary.getD "")
  let title_matches : Rat :=
    if query_words ≠ [] then
      ((query_words.filter (fun w => w ∈ title_words)).length : Rat) /
        (query_words.length : Rat)
    else 0
  let summary_matches : Rat :=
    if query_words ≠ [] then
      ((query_words.filter (fun w => w ∈ summary_words)).length : Rat) /
        (query_words.length : Rat)
    else 0
  title_matches * TITLE_WEIGHT + summary_matches * SUMMARY_WEIGHT

/-- From `semantic_search.py` lines 82-90: the generator expression over
`confidence_thresholds` sorted descending (`0.85 → VERY_STRONG, 0.7 →
STRONG, 0.6 → POSSIBLE, 0.0 → WEAK`) picks the first threshold the score
clears; `next` raises `StopIteration` (here: `none`) when none is
cleared, which happens exactly for negative scores. -/
def confidenceFor (score : Rat) : Option MatchConfidence :=
  if 85/100 ≤ score then some .VERY_STRONG
  else if 7/10 ≤ score then some .STRONG
  else if 6/10 ≤ score then some .POSSIBLE
  else if 0 ≤ score then some .WEAK
  else none

/-- Lines 69-80 of `semantic_search.py`: the combined score
`max(semantic_similarity, semantic_similarity + exact_match_score *
EXACT_MATCH_BOOST)`, with `sim` abstracting the normalized-dot cosine
similarity of the query and the candidate embedding. -/
def combinedScore (sim : String → List Rat → Rat) (query : String)
    (item : NewsItem) (emb : List Rat) : Rat :=
  let semantic_similarity := sim query emb
  let exact_match_score :=
    calculate_exact_match_score query item.title item.summary
  max semantic_similarity
    (semantic_similarity + exact_match_score * EXACT_MATCH_BOOST)

/-- The candidate loop of `SemanticSearchService.search` (lines 63-105):
skip items without embeddings, keep scores clearing `min_threshold`, and
tier them; an uncleared tier lookup raises `StopIteration`. -/
def searchLoop (sim : String → List Rat → Rat) (query : String)
    (min_threshold : Rat) :
    List NewsItem → Except SearchError (List SemanticSearchResult)
  | [] => .ok []
  | item :: rest =>
    match item.embedding with
    | none => searchLoop sim query min_threshold rest
    | some emb =>
      if min_threshold ≤ combinedScore sim query item emb then
        match confidenceFor (combinedScore sim query item emb) with
        | none => .error .stopIteration
        | some confidence =>
          match searchLoop sim query min_threshold rest with
          | .error err => .error err
          | .ok rs =>
            .ok ({ news_item := item,
                   similarity_score := combinedScore sim query item emb,
                   confidence := confidence } :: rs)
      else searchLoop sim query min_threshold rest

/-- Ordering of results: `similarity_score` descending. -/
def scoreGE (a b : SemanticSearchResult) : Prop :=
  b.similarity_score ≤ a.similarity_score

instance : DecidableRel scoreGE := fun a b =>
  inferInstanceAs (Decidable (b.similarity_score ≤ a.similarity_score))

instance : IsTotal SemanticSearchResult scoreGE :=
  ⟨fun a b => le_total b.similarity_score a.similarity_score⟩

instance : IsTrans SemanticSearchResult scoreGE :=
  ⟨fun _ _ _ hab hbc => le_trans hbc hab⟩

/-- From `semantic_search.py` (`SemanticSearchService.search`).  `sim`
abstracts the float pipeline `normalize(model.encode(query)) ·
normalize(article_embedding)`.  Lines 50-55: missing caller weights
default to the class constants, and the pair is divided by its sum —
with no zero guard, so a zero sum raises `ZeroDivisionError`; the
renormalized `t_weight`/`s_weight` are never read again in the source,
so they are bound and discarded here too. -/
def SemanticSearchService.search (sim : String → List Rat → Rat)
    (query : String) (articles : List NewsItem) (min_threshold : Rat)
    (title_weight summary_weight : Option Rat) (max_results : Nat) :
    Except SearchError (List SemanticSearchResult) :=
  let t_weight := title_weight.getD TITLE_WEIGHT
  let s_weight := summary_weight.getD SUMMARY_WEIGHT
  let total_weight := t_weight + s_weight
  if total_weight = 0 then .error .zeroDivision
  else
    let _t_weight := t_weight / total_weight
    let _s_weight := s_weight / total_weight
    match searchLoop sim query min_threshold articles with
    | .error err => .error err
    | .ok results =>
      .ok ((List.insertionSort scoreGE results).take max_results)

/-- From `clustering_service.py` (`ClusteringState`). -/
structure ClusteringState where
  last_cluster_time : Option Int
  items_since_last_cluster : Nat
  needs_clustering : Bool
deriving DecidableEq

/-- From `clustering_service.py` (`NewsClusteringService.__init__`):
topic assignments (a `dict`, modelled as an association list), the
clustering state, and the configured threshold. -/
structure NewsClusteringService where
  item_topics : List (String × Int)
  state : ClusteringState
  CLUSTER_THRESHOLD : Nat
deriving DecidableEq

/-- `NewsClusteringService.should_cluster`. -/
def NewsClusteringService.should_cluster (svc : NewsClusteringService) : Bool :=
  svc.state.needs_clustering &&
    decide (svc.CLUSTER_THRESHOLD ≤ svc.state.items_since_last_cluster)

/-- `NewsClusteringService.add_item` (lines 39-48): a no-op for items
without an embedding; otherwise bump the counter and set the flag. -/
def NewsClusteringService.add_item (svc : NewsClusteringService)
    (item_id : String) (item : NewsItem) : NewsClusteringService :=
  match item.embedding with
  | none => svc
  | some _ =>
    { svc with
      state := { svc.state with
        needs_clustering := true,
        items_since_last_cluster := svc.state.items_since_last_cluster + 1 } }

/-- Python `dict` assignment `m[k] = v` on an association list: update
in place if the key exists, else append. -/
def dictInsert (m : List (String × Int)) (k : String) (v : Int) :
    List (String × Int) :=
  match m with
  | [] => [(k, v)]
  | (k1, v1) :: rest =>
    if k1 = k then (k1, v) :: rest else (k1, v1) :: dictInsert rest k v

/-- `f"{item.title or ''} {item.summary or ''}"` (line 71 of
`clustering_service.py`). -/
def clusterText (item : NewsItem) : String :=
  item.title.getD "" ++ " " ++ item.summary.getD ""

/-- The collection loop of `cluster_items` (lines 54-74): ids,
embeddings and texts of the items that carry an embedding, in snapshot
order.  The `isinstance`/NaN checks are vacuous in the `Rat` model. -/
def collectValid (items : List (String × NewsItem)) :
    List String × List (List Rat) × List String :=
  match items with
  | [] => ([], [], [])
  | (id1, item) :: rest =>
    let r := collectValid rest
    match item.embedding with
    | none => r
    | some emb => (id1 :: r.1, emb :: r.2.1, clusterText item :: r.2.2)

/-- From `clustering_service.py` (`NewsClusteringService.cluster_items`).
`fit` abstracts `BERTopic.fit_transform` (texts + embeddings in, one
topic id per input out; `.error` models a raised exception, lines
120-128).  Guards in source order: no valid embeddings (line 76), fewer
than the threshold (line 80), wrong dimension — `np.array(...).shape[1]
!= 384`, which (including the ragged-array error path) leaves state
unchanged exactly when not every embedding has length 384 (lines
85-92).  On success the new assignments are written into `item_topics`
one by one (lines 102-103: `self.item_topics[id_] = topic` — the dict is
never cleared first) and the state counters reset; `last_cluster_time`
is never written by the source. -/
def NewsClusteringService.cluster_items
    (fit : List String → List (List Rat) → Except Unit (List Int))
    (svc : NewsClusteringService) (items : List (String × NewsItem)) :
    NewsClusteringService :=
  let c := collectValid items
  let ids := c.1
  let embeddings := c.2.1
  let texts := c.2.2
  if embeddings = [] then svc
  else if embeddings.length < svc.CLUSTER_THRESHOLD then svc
  else if !(embeddings.all (fun e => e.length == 384)) then svc
  else
    match fit texts embeddings with
    | .error _ => svc
    | .ok topics =>
      { svc with
        item_topics :=
          (ids.zip topics).foldl (fun m p => dictInsert m p.1 p.2) svc.item_topics,
        state := { svc.state with
          needs_clustering := false, items_since_last_cluster := 0 } }

/-- One full background cycle over the whole system.  The body of
`_rss_poller` (`news_service.py` lines 52-78) makes no call into any
clustering component — `NewsService.__init__` constructs only
`news_store`, `feed_state` and `_polling_task`, and no
`clustering_service` attribute exists (though `api/routes.py` lines 89,
111 and 133 dereference `news_service.clustering_service`) — so the
clustering service is returned untouched. -/
def system_cycle (embed : Embedder) (now : Int) (feed : Feed)
    (svc : NewsServiceState) (clustering : NewsClusteringService) :
    (List NewsItem × NewsServiceState) × NewsClusteringService :=
  (rss_poller_cycle embed now feed svc, clustering)

/-- A single `appendleft` on a `maxlen`-bounded deque never exceeds the
capacity. -/
theorem dequeAppendleft_length_le (cap : Nat) (s : List NewsItem) (x : NewsItem) :
    (dequeAppendleft cap s x).length ≤ cap := by
  simp [dequeAppendleft]

/-- Any number of insertions keeps the store within capacity. -/
theorem foldl_dequeAppendleft_length_le (cap : Nat) :
    ∀ (xs s : List NewsItem), s.length ≤ cap →
      (xs.foldl (dequeAppendleft cap) s).length ≤ cap := by
  intro xs
  induction xs with
  | nil => intro s hs; simpa using hs
  | cons x xs ih =>
    intro s _
    simpa using ih (dequeAppendleft cap s x) (dequeAppendleft_length_le cap s x)

/-- C6: after any number of insertions the store holds at most
`MAX_STORED_ARTICLES` items; an insertion always succeeds (the new item
becomes the head of the deque); and an insertion into a full store
evicts exactly the least-recently-inserted element (the rightmost one),
i.e. eviction is by insertion order, not by `published` time. -/
theorem c6_bounded_store_eviction (xs : List NewsItem) (x : NewsItem)
    (s : List NewsItem) (h : s.length = MAX_STORED_ARTICLES) :
    (xs.foldl (dequeAppendleft MAX_STORED_ARTICLES) []).length ≤ MAX_STORED_ARTICLES
    ∧ (dequeAppendleft MAX_STORED_ARTICLES s x).head? = some x
    ∧ dequeAppendleft MAX_STORED_ARTICLES s x = x :: s.dropLast := by
  have h3 : dequeAppendleft MAX_STORED_ARTICLES s x = x :: s.dropLast := by
    simp only [dequeAppendleft]
    rw [List.dropLast_eq_take, h]
    show (x :: s).take (99 + 1) = x :: s.take (MAX_STORED_ARTICLES - 1)
    rw [List.take_succ_cons]
    rfl
  refine ⟨foldl_dequeAppendleft_length_le _ xs [] (by simp), ?_, h3⟩
  rw [h3]
  rfl

/-- A store item used by concrete instantiations. -/
def sampleItem (i : Nat) : NewsItem :=
  ⟨"", (i : Int), none, none, none, none, none⟩

/-- A store filled exactly to capacity. -/
def fullStore : List NewsItem :=
  (List.range MAX_STORED_ARTICLES).map sampleItem

theorem c6_witness :
    fullStore.length = MAX_STORED_ARTICLES
    ∧ (([sampleItem 7].foldl (dequeAppendleft MAX_STORED_ARTICLES) []).length
          ≤ MAX_STORED_ARTICLES
        ∧ (dequeAppendleft MAX_STORED_ARTICLES fullStore (sampleItem 7)).head?
            = some (sampleItem 7)
        ∧ dequeAppendleft MAX_STORED_ARTICLES fullStore (sampleItem 7)
            = sampleItem 7 :: fullStore.dropLast) :=
  ⟨by simp [fullStore],
   c6_bounded_store_eviction [sampleItem 7] (sampleItem 7) fullStore
     (by simp [fullStore])⟩

/-- C7: `get_all_news` returns the stored items sorted by `published`
descending (a permutation of the store), and `get_latest_news n` is the
first `n` items of that same order, for every store content and
insertion order. -/
theorem c7_read_order (store : List NewsItem) (count : Nat) :
    List.Sorted pubGE (NewsService.get_all_news store)
    ∧ (NewsService.get_all_news store).Perm store
    ∧ NewsService.get_latest_news count store
        = (NewsService.get_all_news store).take count := by
  refine ⟨List.sorted_insertionSort pubGE store,
    List.perm_insertionSort pubGE store, ?_⟩
  simp only [NewsService.get_latest_news, NewsService.get_all_news]
  have h1 := List.take_take count (List.insertionSort pubGE store).length
    (List.insertionSort pubGE store)
  rw [List.take_length] at h1
  exact h1.symm

/-- The item list carried by an outcome of the entry loop (`[]` when the
loop aborted: the outer handler returns an empty list). -/
def listOf : Except FeedState (List NewsItem × FeedState) → List NewsItem
  | .error _ => []
  | .ok (res, _) => res

theorem stateOf_consResult (item : NewsItem)
    (x : Except FeedState (List NewsItem × FeedState)) :
    stateOf (consResult item x) = stateOf x := by
  cases x with
  | error st => rfl
  | ok r => cases r; rfl

theorem listOf_consResult (item : NewsItem)
    (x : Except FeedState (List NewsItem × FeedState)) {y : NewsItem}
    (h : y ∈ listOf (consResult item x)) : y = item ∨ y ∈ listOf x := by
  cases x with
  | error st => cases h
  | ok r =>
    obtain ⟨res, st2⟩ := r
    simp only [consResult, listOf] at h ⊢
    exact List.mem_cons.mp h

/-- The entry loop never touches `latest_hash` (it only mutates
`seen_ids`), in both its normal and its aborted outcome. -/
theorem processEntries_latest_hash (embed : Embedder) (now : Int)
    (source : Option String) :
    ∀ (entries : List Entry) (st : FeedState),
      (stateOf (processEntries embed now source entries st)).latest_hash
        = st.latest_hash := by
  intro entries
  induction entries with
  | nil => intro st; rfl
  | cons e rest ih =>
    intro st
    simp only [processEntries]
    by_cases hmem : guidOf e ∈ st.seen_ids
    · rw [if_pos hmem]; exact ih st
    · rw [if_neg hmem]
      by_cases htext : embedText (strOpt e.title) (strOpt e.summary) = ""
      · rw [if_pos htext, stateOf_consResult]
        exact ih _
      · rw [if_neg htext]
        cases hemb : embed (embedText (strOpt e.title) (strOpt e.summary)) with
        | error u => rfl
        | ok v =>
          rw [stateOf_consResult]
          exact ih _

/-- `seen_ids` only grows across the entry loop, in both outcomes. -/
theorem processEntries_seen_mono (embed : Embedder) (now : Int)
    (source : Option String) :
    ∀ (entries : List Entry) (st : FeedState) (g : String),
      g ∈ st.seen_ids →
      g ∈ (stateOf (processEntries embed now source entries st)).seen_ids := by
  intro entries
  induction entries with
  | nil => intro st g h; exact h
  | cons e rest ih =>
    intro st g h
    simp only [processEntries]
    by_cases hmem : guidOf e ∈ st.seen_ids
    · rw [if_pos hmem]; exact ih st g h
    · rw [if_neg hmem]
      by_cases htext : embedText (strOpt e.title) (strOpt e.summary) = ""
      · rw [if_pos htext, stateOf_consResult]
        exact ih _ g (List.mem_cons_of_mem _ h)
      · rw [if_neg htext]
        cases hemb : embed (embedText (strOpt e.title) (strOpt e.summary)) with
        | error u => exact List.mem_cons_of_mem _ h
        | ok v =>
          rw [stateOf_consResult]
          exact ih _ g (List.mem_cons_of_mem _ h)

/-- Every item the entry loop emits has a guid that was not yet in
`seen_ids` when the loop started. -/
theorem processEntries_fresh (embed : Embedder) (now : Int)
    (source : Option String) :
    ∀ (entries : List Entry) (st : FeedState) (item : NewsItem),
      item ∈ listOf (processEntries embed now source entries st) →
      item.id ∉ st.seen_ids := by
  intro entries
  induction entries with
  | nil => intro st item h; cases h
  | cons e rest ih =>
    intro st item h
    rw [processEntries] at h
    by_cases hmem : guidOf e ∈ st.seen_ids
    · rw [if_pos hmem] at h; exact ih st item h
    · rw [if_neg hmem] at h
      simp only at h
      by_cases htext : embedText (strOpt e.title) (strOpt e.summary) = ""
      · rw [if_pos htext] at h
        rcases listOf_consResult _ _ h with rfl | h2
        · exact hmem
        · intro hc
          exact ih _ item h2 (List.mem_cons_of_mem _ hc)
      · rw [if_neg htext] at h
        cases hemb : embed (embedText (strOpt e.title) (strOpt e.summary)) with
        | error u => rw [hemb] at h; cases h
        | ok v =>
          rw [hemb] at h
          rcases listOf_consResult _ _ h with rfl | h2
          · exact hmem
          · intro hc
            exact ih _ item h2 (List.mem_cons_of_mem _ hc)

/-- The digest of a feed with at least one entry is never the empty
string (a real sha1 hex digest has 40 characters; the encoding keeps a
nonempty prefix). -/
theorem generate_latest_hash_ne_empty (t : Option String) (e : Entry)
    (rest : List Entry) :
    generate_latest_hash ⟨t, e :: rest⟩ ≠ "" := by
  intro hc
  have h2 := congrArg String.length hc
  simp only [generate_latest_hash, String.length_append] at h2
  have h6 : ("sha1:(" : String).length = 6 := rfl
  have h0 : ("" : String).length = 0 := rfl
  rw [h6, h0] at h2
  omega

/-- `seen_ids` only grows across a `fetch_feed` call. -/
theorem fetch_feed_seen_mono (embed : Embedder) (now : Int) (feed : Feed)
    (st : FeedState) (g : String) (h : g ∈ st.seen_ids) :
    g ∈ (fetch_feed embed now feed st).2.seen_ids := by
  rw [fetch_feed]
  by_cases hc : (hashTruthy st.latest_hash
      && (generate_latest_hash feed == st.latest_hash.getD "")) = true
  · rw [if_pos hc]; exact h
  · rw [if_neg hc]
    have hmono := processEntries_seen_mono embed now feed.feed_title feed.entries
      { latest_hash := some (generate_latest_hash feed),
        last_fetch_time := some now, seen_ids := st.seen_ids } g h
    cases hP : processEntries embed now feed.feed_title feed.entries
        { latest_hash := some (generate_latest_hash feed),
          last_fetch_time := some now, seen_ids := st.seen_ids } with
    | error st2 =>
      simp only [hP]
      rw [hP] at hmono
      exact hmono
    | ok r =>
      obtain ⟨res, st2⟩ := r
      simp only [hP]
      rw [hP] at hmono
      exact hmono

/-- Every item a `fetch_feed` call returns was not yet in `seen_ids`
when the call started. -/
theorem fetch_feed_fresh (embed : Embedder) (now : Int) (feed : Feed)
    (st : FeedState) (item : NewsItem)
    (h : item ∈ (fetch_feed embed now feed st).1) : item.id ∉ st.seen_ids := by
  rw [fetch_feed] at h
  by_cases hc : (hashTruthy st.latest_hash
      && (generate_latest_hash feed == st.latest_hash.getD "")) = true
  · rw [if_pos hc] at h; cases h
  · rw [if_neg hc] at h
    have hfresh := processEntries_fresh embed now feed.feed_title feed.entries
      { latest_hash := some (generate_latest_hash feed),
        last_fetch_time := some now, seen_ids := st.seen_ids } item
    cases hP : processEntries embed now feed.feed_title feed.entries
        { latest_hash := some (generate_latest_hash feed),
          last_fetch_time := some now, seen_ids := st.seen_ids } with
    | error st2 =>
      simp only [hP] at h
      cases h
    | ok r =>
      obtain ⟨res, st2⟩ := r
      simp only [hP] at h
      rw [hP] at hfresh
      exact hfresh h

/-- `seen_ids` only grows across a whole polling sequence. -/
theorem runFeeds_seen_mono (embed : Embedder) :
    ∀ (steps : List (Feed × Int)) (st : FeedState) (g : String),
      g ∈ st.seen_ids → g ∈ (runFeeds embed steps st).2.seen_ids := by
  intro steps
  induction steps with
  | nil => intro st g h; exact h
  | cons p rest ih =>
    intro st g h
    obtain ⟨f, now⟩ := p
    exact ih _ g (fetch_feed_seen_mono embed now f st g h)

/-- C5: over any sequence of `fetch_feed` calls sharing one
`FeedState`, a guid that has ever entered `seen_ids` is never again
included in a returned batch of new items — even if later feeds re-list
or reorder that entry. -/
theorem c5_seen_never_reemitted (embed : Embedder)
    (pre post : List (Feed × Int)) (s : FeedState) (g : String)
    (hseen : g ∈ (runFeeds embed pre s).2.seen_ids) :
    ∀ out ∈ (runFeeds embed post (runFeeds embed pre s).2).1,
      ∀ item ∈ out, item.id ≠ g := by
  generalize (runFeeds embed pre s).2 = mid at hseen ⊢
  clear pre s
  induction post generalizing mid with
  | nil => intro out hout; cases hout
  | cons p rest ih =>
    intro out hout item hitem
    obtain ⟨f, now⟩ := p
    simp only [runFeeds] at hout
    rcases List.mem_cons.mp hout with rfl | hout2
    · intro hc
      exact fetch_feed_fresh embed now f mid item hitem (hc ▸ hseen)
    · exact ih _ (fetch_feed_seen_mono embed now f mid g hseen) out hout2 item hitem

theorem c5_witness :
    "g1" ∈ (runFeeds (fun _ => .ok [])
        [(⟨none, [⟨some "g1", "", none, none, none, some 1⟩]⟩, 0)]
        ⟨none, none, []⟩).2.seen_ids
    ∧ (([⟨"g2", 5, none, none, none, none, none⟩] : List NewsItem)
          ∈ (runFeeds (fun _ => .ok [])
              [(⟨none, [⟨some "g2", "", none, none, none, some 5⟩,
                        ⟨some "g1", "", none, none, none, some 1⟩]⟩, 10)]
              (runFeeds (fun _ => .ok [])
                [(⟨none, [⟨some "g1", "", none, none, none, some 1⟩]⟩, 0)]
                ⟨none, none, []⟩).2).1)
    ∧ (⟨"g2", 5, none, none, none, none, none⟩ : NewsItem)
        ∈ ([⟨"g2", 5, none, none, none, none, none⟩] : List NewsItem)
    ∧ (⟨"g2", 5, none, none, none, none, none⟩ : NewsItem).id ≠ "g1" :=
  ⟨by decide, by decide, by decide,
   c5_seen_never_reemitted (fun _ => .ok [])
     [(⟨none, [⟨some "g1", "", none, none, none, some 1⟩]⟩, 0)]
     [(⟨none, [⟨some "g2", "", none, none, none, some 5⟩,
               ⟨some "g1", "", none, none, none, some 1⟩]⟩, 10)]
     ⟨none, none, []⟩ "g1" (by decide)
     [⟨"g2", 5, none, none, none, none, none⟩] (by decide)
     ⟨"g2", 5, none, none, none, none, none⟩ (by decide)⟩

/-- After any `fetch_feed` call over `feed`, the stored `latest_hash` is
the digest of `feed`'s newest entry (the short-circuit case keeps an
already-equal digest; the processing case stores the new one and the
entry loop never touches it). -/
theorem fetch_feed_latest_hash (embed : Embedder) (now : Int) (feed : Feed)
    (st : FeedState) :
    (fetch_feed embed now feed st).2.latest_hash
      = some (generate_latest_hash feed) := by
  rw [fetch_feed]
  by_cases hc : (hashTruthy st.latest_hash
      && (generate_latest_hash feed == st.latest_hash.getD "")) = true
  · rw [if_pos hc]
    rcases Bool.and_eq_true .. |>.mp hc with ⟨ht, heq⟩
    cases hlc : st.latest_hash with
    | none => rw [hlc] at ht; cases ht
    | some s =>
      rw [hlc] at heq
      have hs : generate_latest_hash feed = s := by simpa using heq
      rw [hs]
  · rw [if_neg hc]
    have hframe := processEntries_latest_hash embed now feed.feed_title feed.entries
      { latest_hash := some (generate_latest_hash feed),
        last_fetch_time := some now, seen_ids := st.seen_ids }
    cases hP : processEntries embed now feed.feed_title feed.entries
        { latest_hash := some (generate_latest_hash feed),
          last_fetch_time := some now, seen_ids := st.seen_ids } with
    | error st2 =>
      simp only [hP]
      rw [hP] at hframe
      exact hframe
    | ok r =>
      obtain ⟨res, st2⟩ := r
      simp only [hP]
      rw [hP] at hframe
      exact hframe

/-- A `fetch_feed` call against a state already carrying `feed`'s
digest returns no items and leaves `seen_ids` unchanged. -/
theorem fetch_feed_unchanged (embed : Embedder) (now : Int) (feed : Feed)
    (st2 : FeedState)
    (hh : st2.latest_hash = some (generate_latest_hash feed)) :
    (fetch_feed embed now feed st2).1 = []
    ∧ (fetch_feed embed now feed st2).2.seen_ids = st2.seen_ids := by
  rw [fetch_feed]
  cases hent : feed.entries with
  | nil =>
    have hhash : generate_latest_hash feed = "" := by
      rw [generate_latest_hash, hent]
    have hcond : (hashTruthy st2.latest_hash
        && (generate_latest_hash feed == st2.latest_hash.getD "")) = false := by
      rw [hh, hhash]
      rfl
    rw [if_neg (by simp [hcond])]
    have hP : processEntries embed now feed.feed_title []
        { latest_hash := some (generate_latest_hash feed),
          last_fetch_time := some now, seen_ids := st2.seen_ids }
        = .ok ([],
            { latest_hash := some (generate_latest_hash feed),
              last_fetch_time := some now, seen_ids := st2.seen_ids }) := rfl
    simp [hP]
  | cons e rest =>
    have hne : generate_latest_hash feed ≠ "" := by
      have hx := generate_latest_hash_ne_empty feed.feed_title e rest
      have hfeed : feed = ⟨feed.feed_title, feed.entries⟩ := rfl
      rw [hfeed, hent]
      exact hx
    have hcond : (hashTruthy st2.latest_hash
        && (generate_latest_hash feed == st2.latest_hash.getD "")) = true := by
      rw [hh]
      simp only [hashTruthy, Option.getD_some, Bool.and_eq_true, bne_iff_ne,
        ne_eq, beq_self_eq_true, and_true]
      exact hne
    rw [if_pos hcond]
    exact ⟨rfl, rfl⟩

/-- C8: two consecutive `fetch_feed` calls over the same raw feed
content and a shared `FeedState`: the second call returns an empty list
and leaves `seen_ids` unchanged (for a nonempty feed the second call is
stopped by the content-hash short-circuit; for an empty feed the hash
`""` is falsy, so the loop re-runs — over zero entries). -/
theorem c8_unchanged_feed_short_circuit (embed : Embedder) (feed : Feed)
    (st : FeedState) (now1 now2 : Int) :
    (fetch_feed embed now2 feed (fetch_feed embed now1 feed st).2).1 = []
    ∧ (fetch_feed embed now2 feed (fetch_feed embed now1 feed st).2).2.seen_ids
        = (fetch_feed embed now1 feed st).2.seen_ids :=
  fetch_feed_unchanged embed now2 feed (fetch_feed embed now1 feed st).2
    (fetch_feed_latest_hash embed now1 feed st)

/-- `strOpt` never produces `some ""`. -/
theorem strOpt_ne_empty (o : Option String) (s : String)
    (h : strOpt o = some s) : s ≠ "" := by
  cases o with
  | none => cases h
  | some t =>
    by_cases ht : t = ""
    · rw [strOpt, if_pos ht] at h; cases h
    · rw [strOpt, if_neg ht] at h
      cases h
      exact ht

/-- The embed text is empty only when both (truthiness-normalized)
fields are absent. -/
theorem embedText_eq_empty (a b : Option String)
    (ha : ∀ s, a = some s → s ≠ "") (hb : ∀ s, b = some s → s ≠ "")
    (h : embedText a b = "") : a = none ∧ b = none := by
  cases a with
  | none =>
    cases b with
    | none => exact ⟨rfl, rfl⟩
    | some y =>
      exfalso
      have hy := hb y rfl
      simp [embedText, joinSpace, hy] at h
  | some x =>
    have hx := ha x rfl
    cases b with
    | none =>
      exfalso
      simp [embedText, joinSpace, hx] at h
    | some y =>
      exfalso
      have hy := hb y rfl
      simp [embedText, joinSpace, hx, hy] at h
      have hlen := congrArg String.length h
      simp only [String.length_append] at hlen
      have h1 : (" " : String).length = 1 := rfl
      have h0 : ("" : String).length = 0 := rfl
      rw [h1, h0] at hlen
      omega

theorem consResult_eq_ok {item : NewsItem}
    {x : Except FeedState (List NewsItem × FeedState)}
    {out : List NewsItem} {st2 : FeedState}
    (h : consResult item x = .ok (out, st2)) :
    ∃ res, x = .ok (res, st2) ∧ out = item :: res := by
  cases x with
  | error st => cases h
  | ok r =>
    obtain ⟨res, st3⟩ := r
    simp only [consResult, Except.ok.injEq, Prod.mk.injEq] at h
    exact ⟨res, by rw [h.2], h.1.symm⟩

/-- When the entry loop completes without an exception, the returned
items are exactly the fresh guids of the feed, in feed order. -/
theorem processEntries_ok_ids (embed : Embedder) (now : Int)
    (source : Option String) :
    ∀ (entries : List Entry) (st : FeedState) (out : List NewsItem)
      (st2 : FeedState),
      processEntries embed now source entries st = .ok (out, st2) →
      out.map NewsItem.id = freshGuids entries st.seen_ids := by
  intro entries
  induction entries with
  | nil =>
    intro st out st2 h
    simp only [processEntries, Except.ok.injEq, Prod.mk.injEq] at h
    rw [← h.1]
    rfl
  | cons e rest ih =>
    intro st out st2 h
    rw [processEntries] at h
    rw [freshGuids]
    by_cases hmem : guidOf e ∈ st.seen_ids
    · rw [if_pos hmem] at h
      rw [if_pos hmem]
      exact ih st out st2 h
    · rw [if_neg hmem] at h
      rw [if_neg hmem]
      simp only at h
      by_cases htext : embedText (strOpt e.title) (strOpt e.summary) = ""
      · rw [if_pos htext] at h
        obtain ⟨res, hres, rfl⟩ := consResult_eq_ok h
        simp only [List.map_cons]
        rw [ih _ res st2 hres]
      · rw [if_neg htext] at h
        cases hemb : embed (embedText (strOpt e.title) (strOpt e.summary)) with
        | error u => rw [hemb] at h; cases h
        | ok v =>
          rw [hemb] at h
          obtain ⟨res, hres, rfl⟩ := consResult_eq_ok h
          simp only [List.map_cons]
          rw [ih _ res st2 hres]

/-- When the entry loop completes without an exception, an item lacks an
embedding only when it has neither title nor summary (its embed text was
empty, so the provider was never called): a provider failure is never
recorded as an absent embedding. -/
theorem processEntries_ok_embeddings (embed : Embedder) (now : Int)
    (source : Option String) :
    ∀ (entries : List Entry) (st : FeedState) (out : List NewsItem)
      (st2 : FeedState),
      processEntries embed now source entries st = .ok (out, st2) →
      out.all (fun item =>
        item.embedding.isSome || (item.title.isNone && item.summary.isNone))
        = true := by
  intro entries
  induction entries with
  | nil =>
    intro st out st2 h
    simp only [processEntries, Except.ok.injEq, Prod.mk.injEq] at h
    rw [← h.1]
    rfl
  | cons e rest ih =>
    intro st out st2 h
    rw [processEntries] at h
    by_cases hmem : guidOf e ∈ st.seen_ids
    · rw [if_pos hmem] at h
      exact ih st out st2 h
    · rw [if_neg hmem] at h
      simp only at h
      by_cases htext : embedText (strOpt e.title) (strOpt e.summary) = ""
      · rw [if_pos htext] at h
        obtain ⟨res, hres, rfl⟩ := consResult_eq_ok h
        have hts := embedText_eq_empty (strOpt e.title) (strOpt e.summary)
          (strOpt_ne_empty e.title) (strOpt_ne_empty e.summary) htext
        rw [List.all_cons]
        simp only [hts.1, hts.2, Option.isSome_none, Option.isNone_none,
          Bool.and_self, Bool.or_true, Bool.true_and]
        exact ih _ res st2 hres
      · rw [if_neg htext] at h
        cases hemb : embed (embedText (strOpt e.title) (strOpt e.summary)) with
        | error u => rw [hemb] at h; cases h
        | ok v =>
          rw [hemb] at h
          obtain ⟨res, hres, rfl⟩ := consResult_eq_ok h
          rw [List.all_cons]
          simp only [Option.isSome_some, Bool.true_or, Bool.true_and]
          exact ih _ res st2 hres

/-- C4 (amended): an embedding-provider exception is NOT swallowed
per-item — a cycle either returns every freshly admitted entry (when no
provider call raised) or returns nothing at all; and an item with an
absent embedding can only arise from an empty embed text (no title and
no summary), never from a provider failure. -/
theorem c4_cycle_all_or_nothing (embed : Embedder) (now : Int) (feed : Feed)
    (st : FeedState) :
    ((fetch_feed embed now feed st).1 = []
      ∨ (fetch_feed embed now feed st).1.map NewsItem.id
          = freshGuids feed.entries st.seen_ids)
    ∧ (fetch_feed embed now feed st).1.all
        (fun item =>
          item.embedding.isSome || (item.title.isNone && item.summary.isNone))
        = true := by
  rw [fetch_feed]
  by_cases hc : (hashTruthy st.latest_hash
      && (generate_latest_hash feed == st.latest_hash.getD "")) = true
  · rw [if_pos hc]
    exact ⟨Or.inl rfl, rfl⟩
  · rw [if_neg hc]
    cases hP : processEntries embed now feed.feed_title feed.entries
        { latest_hash := some (generate_latest_hash feed),
          last_fetch_time := some now, seen_ids := st.seen_ids } with
    | error st2 =>
      simp [hP]
    | ok r =>
      obtain ⟨res, st2⟩ := r
      simp only [hP]
      refine ⟨Or.inr ?_, ?_⟩
      · exact processEntries_ok_ids embed now feed.feed_title feed.entries
          { latest_hash := some (generate_latest_hash feed),
            last_fetch_time := some now, seen_ids := st.seen_ids } res st2 hP
      · exact processEntries_ok_embeddings embed now feed.feed_title feed.entries
          { latest_hash := some (generate_latest_hash feed),
            last_fetch_time := some now, seen_ids := st.seen_ids } res st2 hP

theorem c4_counterexample :
    (fetch_feed
        (fun t => if t = "T2 S2" then .error () else .ok [1])
        0
        ⟨none, [⟨some "a1", "", some "T1", some "S1", none, some 100⟩,
                ⟨some "a2", "", some "T2", some "S2", none, some 90⟩]⟩
        ⟨none, none, []⟩).1 = []
    ∧ (fetch_feed
        (fun t => if t = "T2 S2" then .error () else .ok [1])
        0
        ⟨none, [⟨some "a1", "", some "T1", some "S1", none, some 100⟩,
                ⟨some "a2", "", some "T2", some "S2", none, some 90⟩]⟩
        ⟨none, none, []⟩).2.seen_ids = ["a2", "a1"]
    ∧ ((fetch_feed
        (fun _ => .ok [1])
        0
        ⟨none, [⟨some "a1", "", some "T1", some "S1", none, some 100⟩,
                ⟨some "a2", "", some "T2", some "S2", none, some 90⟩]⟩
        ⟨none, none, []⟩).1.map NewsItem.id) = ["a1", "a2"] := by
  refine ⟨?_, ?_, ?_⟩ <;> decide

/-- C10: with both weights supplied as 0 the renormalization divides by
zero, so the call raises `ZeroDivisionError` before scoring any
candidate — for every article list, query and threshold alike, a
division-by-zero error is returned instead of a result list or a
validation error. -/
theorem c10_zero_weights_division_error (sim : String → List Rat → Rat)
    (query : String) (articles : List NewsItem) (min_threshold : Rat)
    (max_results : Nat) :
    SemanticSearchService.search sim query articles min_threshold
      (some 0) (some 0) max_results = .error .zeroDivision := by
  simp [SemanticSearchService.search]

/-- C1 (amended): a call supplying exactly one of the two weights is NOT
rejected — the missing weight silently defaults to the class constant
(`SUMMARY_WEIGHT` = 0.3 resp. `TITLE_WEIGHT` = 0.7) and the call behaves
exactly like the call with both weights supplied. -/
theorem c1_single_weight_defaulted (sim : String → List Rat → Rat)
    (query : String) (articles : List NewsItem) (min_threshold : Rat)
    (w : Rat) (max_results : Nat) :
    SemanticSearchService.search sim query articles min_threshold
        (some w) none max_results
      = SemanticSearchService.search sim query articles min_threshold
          (some w) (some SUMMARY_WEIGHT) max_results
    ∧ SemanticSearchService.search sim query articles min_threshold
        none (some w) max_results
      = SemanticSearchService.search sim query articles min_threshold
          (some TITLE_WEIGHT) (some w) max_results :=
  ⟨rfl, rfl⟩

/-- An article fixture carrying an embedding. -/
def embArticle : NewsItem :=
  ⟨"a", 0, none, none, none, none, some [1]⟩

theorem c1_counterexample :
    SemanticSearchService.search (fun _ _ => (9 : Rat)/10) "q" [embArticle]
        (1/2) (some 1) none 10
      = .ok [⟨embArticle, 9/10, .VERY_STRONG⟩] := by
  with_unfolding_all decide

/-- Characterization of the tier lookup: a tier is only ever assigned to
a nonnegative score, and each tier corresponds exactly to its
threshold band. -/
theorem confidenceFor_bands (s : Rat) (c : MatchConfidence)
    (h : confidenceFor s = some c) :
    0 ≤ s
    ∧ (c = .VERY_STRONG ↔ 85/100 ≤ s)
    ∧ (c = .STRONG ↔ 7/10 ≤ s ∧ s < 85/100)
    ∧ (c = .POSSIBLE ↔ 6/10 ≤ s ∧ s < 7/10)
    ∧ (c = .WEAK ↔ 0 ≤ s ∧ s < 6/10) := by
  rw [confidenceFor] at h
  split_ifs at h with h1 h2 h3 h4
  · cases h
    refine ⟨by linarith, by simp [h1], ?_, ?_, ?_⟩
    · constructor
      · intro hc; exact absurd hc (by decide)
      · rintro ⟨ha, hb⟩; linarith
    · constructor
      · intro hc; exact absurd hc (by decide)
      · rintro ⟨ha, hb⟩; linarith
    · constructor
      · intro hc; exact absurd hc (by decide)
      · rintro ⟨ha, hb⟩; linarith
  · cases h
    push_neg at h1
    refine ⟨by linarith, ?_, by simp [h2, h1], ?_, ?_⟩
    · constructor
      · intro hc; exact absurd hc (by decide)
      · intro hb; linarith
    · constructor
      · intro hc; exact absurd hc (by decide)
      · rintro ⟨ha, hb⟩; linarith
    · constructor
      · intro hc; exact absurd hc (by decide)
      · rintro ⟨ha, hb⟩; linarith
  · cases h
    push_neg at h1 h2
    refine ⟨by linarith, ?_, ?_, by simp [h3, h2], ?_⟩
    · constructor
      · intro hc; exact absurd hc (by decide)
      · intro hb; linarith
    · constructor
      · intro hc; exact absurd hc (by decide)
      · rintro ⟨ha, hb⟩; linarith
    · constructor
      · intro hc; exact absurd hc (by decide)
      · rintro ⟨ha, hb⟩; linarith
  · cases h
    push_neg at h1 h2 h3
    refine ⟨h4, ?_, ?_, ?_, by simp [h4, h3]⟩
    · constructor
      · intro hc; exact absurd hc (by decide)
      · intro hb; linarith
    · constructor
      · intro hc; exact absurd hc (by decide)
      · rintro ⟨ha, hb⟩; linarith
    · constructor
      · intro hc; exact absurd hc (by decide)
      · rintro ⟨ha, hb⟩; linarith

/-- Every result the candidate loop admits cleared `min_threshold` and
carries the tier the threshold lookup assigned to its combined score. -/
theorem searchLoop_ok_mem (sim : String → List Rat → Rat) (query : String)
    (thr : Rat) :
    ∀ (articles : List NewsItem) (rs : List SemanticSearchResult),
      searchLoop sim query thr articles = .ok rs →
      ∀ r ∈ rs,
        thr ≤ r.similarity_score
        ∧ confidenceFor r.similarity_score = some r.confidence := by
  intro articles
  induction articles with
  | nil =>
    intro rs h r hr
    simp only [searchLoop, Except.ok.injEq] at h
    rw [← h] at hr
    cases hr
  | cons item rest ih =>
    intro rs h r hr
    rw [searchLoop] at h
    cases hemb : item.embedding with
    | none => rw [hemb] at h; exact ih rs h r hr
    | some emb =>
      rw [hemb] at h
      simp only at h
      by_cases hth : thr ≤ combinedScore sim query item emb
      · rw [if_pos hth] at h
        cases hconf : confidenceFor (combinedScore sim query item emb) with
        | none => rw [hconf] at h; cases h
        | some conf =>
          rw [hconf] at h
          cases hrec : searchLoop sim query thr rest with
          | error err => rw [hrec] at h; cases h
          | ok rs2 =>
            rw [hrec] at h
            simp only [Except.ok.injEq] at h
            rw [← h] at hr
            rcases List.mem_cons.mp hr with rfl | hr2
            · exact ⟨hth, hconf⟩
            · exact ih rs2 hrec r hr2
      · rw [if_neg hth] at h
        exact ih rs h r hr

/-- C9 (amended): on a call that returns a result list, every admitted
result's score is at least `min_threshold` and NONNEGATIVE, and its tier
is the one of the highest cleared threshold band (≥0.85 very-strong,
≥0.70 strong, ≥0.60 possible, ≥0 weak).  An admitted negative score is
impossible in a successful call: it would raise `StopIteration` (see the
counterexample), so weak is only assigned to scores in [0, 0.6), not to
all scores below 0.6. -/
theorem c9_confidence_bands (sim : String → List Rat → Rat) (query : String)
    (articles : List NewsItem) (min_threshold : Rat)
    (title_weight summary_weight : Option Rat) (max_results : Nat)
    (res : List SemanticSearchResult)
    (hok : SemanticSearchService.search sim query articles min_threshold
        title_weight summary_weight max_results = .ok res)
    (r : SemanticSearchResult) (hr : r ∈ res) :
    min_threshold ≤ r.similarity_score
    ∧ 0 ≤ r.similarity_score
    ∧ (r.confidence = .VERY_STRONG ↔ 85/100 ≤ r.similarity_score)
    ∧ (r.confidence = .STRONG
        ↔ 7/10 ≤ r.similarity_score ∧ r.similarity_score < 85/100)
    ∧ (r.confidence = .POSSIBLE
        ↔ 6/10 ≤ r.similarity_score ∧ r.similarity_score < 7/10)
    ∧ (r.confidence = .WEAK
        ↔ 0 ≤ r.similarity_score ∧ r.similarity_score < 6/10) := by
  simp only [SemanticSearchService.search] at hok
  by_cases h0 : (title_weight.getD TITLE_WEIGHT + summary_weight.getD SUMMARY_WEIGHT) = 0
  · rw [if_pos h0] at hok; cases hok
  · rw [if_neg h0] at hok
    cases hloop : searchLoop sim query min_threshold articles with
    | error err => rw [hloop] at hok; cases hok
    | ok results =>
      rw [hloop] at hok
      simp only [Except.ok.injEq] at hok
      have hr2 : r ∈ results := by
        rw [← hok] at hr
        have hsub := List.take_subset max_results
          (List.insertionSort scoreGE results)
        have hperm := List.perm_insertionSort scoreGE results
        exact hperm.mem_iff.mp (hsub hr)
      have hm := searchLoop_ok_mem sim query min_threshold articles results
        hloop r hr2
      have hb := confidenceFor_bands r.similarity_score r.confidence hm.2
      exact ⟨hm.1, hb.1, hb.2.1, hb.2.2.1, hb.2.2.2.1, hb.2.2.2.2⟩

theorem c9_counterexample :
    SemanticSearchService.search (fun _ _ => -(1 : Rat)/2) "q" [embArticle]
        (-2) none none 10
      = .error .stopIteration := by
  with_unfolding_all decide

theorem c9_witness :
    SemanticSearchService.search (fun _ _ => (9 : Rat)/10) "q" [embArticle]
        (1/2) none none 10
      = .ok [⟨embArticle, 9/10, .VERY_STRONG⟩]
    ∧ (⟨embArticle, 9/10, .VERY_STRONG⟩ : SemanticSearchResult)
        ∈ [(⟨embArticle, 9/10, .VERY_STRONG⟩ : SemanticSearchResult)]
    ∧ ((1 : Rat)/2 ≤ (9 : Rat)/10
        ∧ (0 : Rat) ≤ (9 : Rat)/10
        ∧ ((MatchConfidence.VERY_STRONG = .VERY_STRONG) ↔ (85/100 : Rat) ≤ 9/10)
        ∧ ((MatchConfidence.VERY_STRONG = .STRONG)
            ↔ (7/10 : Rat) ≤ 9/10 ∧ (9/10 : Rat) < 85/100)
        ∧ ((MatchConfidence.VERY_STRONG = .POSSIBLE)
            ↔ (6/10 : Rat) ≤ 9/10 ∧ (9/10 : Rat) < 7/10)
        ∧ ((MatchConfidence.VERY_STRONG = .WEAK)
            ↔ (0 : Rat) ≤ 9/10 ∧ (9/10 : Rat) < 6/10)) :=
  ⟨by with_unfolding_all decide, by with_unfolding_all decide,
   c9_confidence_bands (fun _ _ => (9 : Rat)/10) "q" [embArticle] (1/2)
     none none 10 [⟨embArticle, 9/10, .VERY_STRONG⟩]
     (by with_unfolding_all decide) ⟨embArticle, 9/10, .VERY_STRONG⟩
     (by with_unfolding_all decide)⟩

/-- `dict` assignment then lookup: the assigned key reads back the new
value, every other key is untouched. -/
theorem lookup_dictInsert (m : List (String × Int)) (k k2 : String) (v : Int) :
    (dictInsert m k v).lookup k2 = if k2 = k then some v else m.lookup k2 := by
  induction m with
  | nil =>
    by_cases h : k2 = k
    · subst h; simp [dictInsert, List.lookup]
    · have hb : (k2 == k) = false := beq_eq_false_iff_ne.mpr h
      simp [dictInsert, List.lookup, hb, h]
  | cons p rest ih =>
    obtain ⟨k1, v1⟩ := p
    by_cases hk : k1 = k
    · subst hk
      rw [dictInsert, if_pos rfl]
      by_cases h2 : k2 = k1
      · subst h2; simp [List.lookup]
      · have hb : (k2 == k1) = false := beq_eq_false_iff_ne.mpr h2
        simp [List.lookup, hb, h2]
    · rw [dictInsert, if_neg hk]
      by_cases h2 : k2 = k1
      · subst h2
        have hne : ¬(k2 = k) := fun hc => hk hc
        simp [List.lookup, hne]
      · have hb : (k2 == k1) = false := beq_eq_false_iff_ne.mpr h2
        simp [List.lookup, hb, h2, ih]

/-- Folding `dict` assignments leaves keys outside the assigned set
untouched. -/
theorem lookup_foldl_dictInsert_not_mem :
    ∀ (ps : List (String × Int)) (m : List (String × Int)) (k : String),
      k ∉ ps.map Prod.fst →
      (ps.foldl (fun m2 p => dictInsert m2 p.1 p.2) m).lookup k = m.lookup k := by
  intro ps
  induction ps with
  | nil => intro m k _; rfl
  | cons q rest ih =>
    intro m k hk
    rw [List.map_cons] at hk
    have hk1 : k ≠ q.1 := fun hc => hk (by rw [hc]; exact List.mem_cons_self _ _)
    have hk2 : k ∉ rest.map Prod.fst := fun hc => hk (List.mem_cons_of_mem _ hc)
    rw [List.foldl_cons, ih (dictInsert m q.1 q.2) k hk2,
      lookup_dictInsert, if_neg hk1]

/-- Folding `dict` assignments with pairwise-distinct keys: each
assigned key reads back its assigned value. -/
theorem lookup_foldl_dictInsert_mem :
    ∀ (ps : List (String × Int)) (m : List (String × Int)) (p : String × Int),
      (ps.map Prod.fst).Nodup → p ∈ ps →
      (ps.foldl (fun m2 q => dictInsert m2 q.1 q.2) m).lookup p.1 = some p.2 := by
  intro ps
  induction ps with
  | nil => intro m p _ hp; cases hp
  | cons q rest ih =>
    intro m p hnd hp
    rw [List.map_cons, List.nodup_cons] at hnd
    rw [List.foldl_cons]
    rcases List.mem_cons.mp hp with rfl | hp2
    · rw [lookup_foldl_dictInsert_not_mem rest _ p.1 hnd.1,
        lookup_dictInsert, if_pos rfl]
    · exact ih _ p hnd.2 hp2

/-- The first components of a zip form a sublist (a prefix) of the left
input. -/
theorem map_fst_zip_sublist :
    ∀ (l1 : List String) (l2 : List Int),
      ((l1.zip l2).map Prod.fst).Sublist l1 := by
  intro l1
  induction l1 with
  | nil => intro l2; simp
  | cons a rest ih =>
    intro l2
    cases l2 with
    | nil => simp
    | cons b l2 =>
      rw [List.zip_cons_cons, List.map_cons]
      exact List.Sublist.cons₂ a (ih l2)

/-- C2 (amended): a successful `cluster_items` call MERGES the snapshot's
computed assignments into the stored mapping one key at a time
(`self.item_topics[id_] = topic` — the dict is never cleared): every
clustered snapshot id maps to its newly computed topic, but every
previously stored assignment for an id outside the snapshot is retained,
not dropped; the state counters are reset. -/
theorem c2_cluster_merges_not_replaces
    (fit : List String → List (List Rat) → Except Unit (List Int))
    (svc : NewsClusteringService) (items : List (String × NewsItem))
    (topics : List Int)
    (h1 : (collectValid items).2.1 ≠ [])
    (h2 : svc.CLUSTER_THRESHOLD ≤ (collectValid items).2.1.length)
    (h3 : (collectValid items).2.1.all (fun e => e.length == 384) = true)
    (h4 : fit (collectValid items).2.2 (collectValid items).2.1 = .ok topics)
    (h5 : (collectValid items).1.Nodup) :
    (NewsClusteringService.cluster_items fit svc items).item_topics
        = ((collectValid items).1.zip topics).foldl
            (fun m p => dictInsert m p.1 p.2) svc.item_topics
    ∧ (∀ id2, id2 ∉ (collectValid items).1 →
        (NewsClusteringService.cluster_items fit svc items).item_topics.lookup id2
          = svc.item_topics.lookup id2)
    ∧ (∀ p ∈ (collectValid items).1.zip topics,
        (NewsClusteringService.cluster_items fit svc items).item_topics.lookup p.1
          = some p.2)
    ∧ (NewsClusteringService.cluster_items fit svc items).state.items_since_last_cluster
        = 0
    ∧ (NewsClusteringService.cluster_items fit svc items).state.needs_clustering
        = false := by
  have hunfold : NewsClusteringService.cluster_items fit svc items
      = { svc with
          item_topics :=
            (((collectValid items).1.zip topics).foldl
              (fun m p => dictInsert m p.1 p.2) svc.item_topics),
          state := { svc.state with
            needs_clustering := false, items_since_last_cluster := 0 } } := by
    simp only [NewsClusteringService.cluster_items]
    rw [if_neg h1, if_neg (not_lt.mpr h2), if_neg (by rw [h3]; decide), h4]
  rw [hunfold]
  refine ⟨rfl, ?_, ?_, rfl, rfl⟩
  · intro id2 hid
    exact lookup_foldl_dictInsert_not_mem _ _ id2
      (fun hc => hid ((map_fst_zip_sublist _ _).subset hc))
  · intro p hp
    exact lookup_foldl_dictInsert_mem _ _ p
      (h5.sublist (map_fst_zip_sublist _ _)) hp

set_option maxRecDepth 8192

/-- A clustering service instance holding one pre-existing assignment,
with threshold 1. -/
def topicSvcOld : NewsClusteringService :=
  ⟨[("old", 3)], ⟨none, 0, false⟩, 1⟩

/-- A snapshot of one item carrying a well-formed 384-dimensional
embedding. -/
def snapItems : List (String × NewsItem) :=
  [("a", ⟨"a", 0, none, none, none, none, some (List.replicate 384 0)⟩)]

/-- A topic model stub assigning topic 0 to every input. -/
def fitConst : List String → List (List Rat) → Except Unit (List Int) :=
  fun _ _ => .ok [0]

theorem c2_counterexample :
    (NewsClusteringService.cluster_items fitConst topicSvcOld snapItems).item_topics.lookup "old"
      = some 3
    ∧ ("old" ∉ snapItems.map Prod.fst)
    ∧ (NewsClusteringService.cluster_items fitConst topicSvcOld snapItems).item_topics.lookup "a"
      = some 0 := by
  refine ⟨?_, ?_, ?_⟩ <;> decide

theorem c2_witness :
    ((collectValid snapItems).2.1 ≠ []
      ∧ topicSvcOld.CLUSTER_THRESHOLD ≤ (collectValid snapItems).2.1.length
      ∧ (collectValid snapItems).2.1.all (fun e => e.length == 384) = true
      ∧ fitConst (collectValid snapItems).2.2 (collectValid snapItems).2.1
          = .ok [0]
      ∧ (collectValid snapItems).1.Nodup)
    ∧ ((NewsClusteringService.cluster_items fitConst topicSvcOld snapItems).item_topics
          = ((collectValid snapItems).1.zip [0]).foldl
              (fun m p => dictInsert m p.1 p.2) topicSvcOld.item_topics
        ∧ (∀ id2, id2 ∉ (collectValid snapItems).1 →
            (NewsClusteringService.cluster_items fitConst topicSvcOld snapItems).item_topics.lookup id2
              = topicSvcOld.item_topics.lookup id2)
        ∧ (∀ p ∈ (collectValid snapItems).1.zip [0],
            (NewsClusteringService.cluster_items fitConst topicSvcOld snapItems).item_topics.lookup p.1
              = some p.2)
        ∧ (NewsClusteringService.cluster_items fitConst topicSvcOld snapItems).state.items_since_last_cluster
            = 0
        ∧ (NewsClusteringService.cluster_items fitConst topicSvcOld snapItems).state.needs_clustering
            = false) :=
  ⟨⟨by decide, by decide, by decide, by decide, by decide⟩,
   c2_cluster_merges_not_replaces fitConst topicSvcOld snapItems [0]
     (by decide) (by decide) (by decide) (by decide) (by decide)⟩

/-- A fresh clustering service with the default threshold 5
(`NewsClusteringService(cluster_threshold=5)`). -/
def freshClustering : NewsClusteringService :=
  ⟨[], ⟨none, 0, false⟩, 5⟩

/-- A two-entry feed whose entries both carry embeddable text. -/
def feedTwo : Feed :=
  ⟨some "BBC News - Middle East",
   [⟨some "a1", "L1", some "T1", some "S1", none, some 100⟩,
    ⟨some "a2", "L2", some "T2", some "S2", none, some 90⟩]⟩

/-- C3: the ingestion cycle never pushes items into the clustering
coordinator.  First conjunct: for EVERY cycle, the clustering service
comes out untouched (the `_rss_poller` body contains no clustering
call).  Concretely: a cycle over a fresh system admits two new items
with embeddings (second conjunct), yet `items_since_last_cluster` stays
0 instead of increasing by 2 (third conjunct) — although feeding those
same two items through `NewsClusteringService.add_item`, as the claim
describes, would raise it to 2 (fourth conjunct). -/
theorem c3_poller_never_reaches_clustering :
    (∀ (embed : Embedder) (now : Int) (feed : Feed) (svc : NewsServiceState)
        (cs : NewsClusteringService),
      (system_cycle embed now feed svc cs).2 = cs)
    ∧ ((system_cycle (fun _ => .ok [1]) 0 feedTwo ⟨[], ⟨none, none, []⟩⟩
          freshClustering).1.1).length = 2
    ∧ ((system_cycle (fun _ => .ok [1]) 0 feedTwo ⟨[], ⟨none, none, []⟩⟩
          freshClustering).1.1).all (fun item => item.embedding.isSome) = true
    ∧ (system_cycle (fun _ => .ok [1]) 0 feedTwo ⟨[], ⟨none, none, []⟩⟩
          freshClustering).2.state.items_since_last_cluster = 0
    ∧ (((system_cycle (fun _ => .ok [1]) 0 feedTwo ⟨[], ⟨none, none, []⟩⟩
          freshClustering).1.1).foldl
            (fun cs item => NewsClusteringService.add_item cs item.id item)
            freshClustering).state.items_since_last_cluster = 2 := by
  refine ⟨fun _ _ _ _ _ => rfl, ?_, ?_, ?_, ?_⟩ <;> decide
